import Mathlib

/-!
Shallow embedding of `src/tools/frames-extractor.ts` (marker store,
zoom-window model, and frame-export pipeline).  JavaScript numbers are
modelled as exact rationals (`ℚ`); all scenario values used below are
exactly representable, so no floating-point rounding is involved.
-/

namespace FramesExtractor

/-- A time-coded marker (`interface Marker` in the source): a time in
seconds and an identity token. -/
structure Marker where
  time : ℚ
  id : String
deriving DecidableEq, Repr

/-- The comparator passed to `markers.sort((a, b) => a.time - b.time)`:
ascending order on `time`. -/
def markerLe (a b : Marker) : Prop := a.time ≤ b.time

instance : DecidableRel markerLe := fun a b => inferInstanceAs (Decidable (a.time ≤ b.time))

instance : IsTotal Marker markerLe := ⟨fun a b => le_total a.time b.time⟩

instance : IsTrans Marker markerLe := ⟨fun _ _ _ h1 h2 => le_trans h1 h2⟩

/-- `addMarker`, lines 263-268 of the source, with the marker given
explicitly: `markers.push({time, id})` followed by
`markers.sort((a, b) => a.time - b.time)`.  `Array.prototype.sort` is
stable (ECMA-262), and a stable sort's output is uniquely determined by
the key order, so the stable `List.insertionSort` is extensionally the
same function. -/
def addMarkerRaw (m : Marker) (l : List Marker) : List Marker :=
  List.insertionSort markerLe (l ++ [m])

/-- The id generated at line 264 of the source:
`` `marker-${Date.now()}` `` where `now` is the millisecond clock value
observed by this call. -/
def markerId (now : ℕ) : String := "marker-" ++ toString now

/-- `addMarker(time)` as invoked from the keydown handler: the id is
derived from the millisecond clock reading `now` at the moment of the
call. -/
def addMarker (now : ℕ) (time : ℚ) (l : List Marker) : List Marker :=
  addMarkerRaw { time := time, id := markerId now } l

/-- `removeMarker`, lines 270-273: `markers.filter(m => m.id !== id)`. -/
def removeMarker (id : String) (l : List Marker) : List Marker :=
  l.filter (fun m => m.id ≠ id)

/-- A sequence of `addMarker` calls starting from the empty collection
(the store starts empty: `markers = []`); each call records the clock
value and the time argument. -/
def runAdds (adds : List (ℕ × ℚ)) : List Marker :=
  adds.foldl (fun l p => addMarker p.1 p.2 l) []

/-- `Math.min` on two numbers (kernel-computable on `ℚ`). -/
def jsMin (a b : ℚ) : ℚ := if a ≤ b then a else b

/-- `Math.max` on two numbers (kernel-computable on `ℚ`). -/
def jsMax (a b : ℚ) : ℚ := if a ≤ b then b else a

/-- The discrete zoom levels `{2, 4, 8}` (`type ZoomLevel = 2 | 4 | 8`). -/
inductive ZoomLevel where
  | l2
  | l4
  | l8
deriving DecidableEq, Repr

/-- The numeric value of a zoom level. -/
def ZoomLevel.toQ : ZoomLevel → ℚ
  | .l2 => 2
  | .l4 => 4
  | .l8 => 8

/-- The mutable zoom-window state of the source module: `zoomLevel`,
`zoomWindowStart` and `zoomEnabled`. -/
structure ZoomState where
  level : ZoomLevel
  zoomWindowStart : ℚ
  zoomEnabled : Bool
deriving DecidableEq, Repr

/-- The span of the detail window at an explicit level:
`getZoomWindowDuration`, lines 355-358
(`if (!video || !video.duration) return 0; return video.duration / zoomLevel`),
with the video present and its duration `d` (the duration-zero guard is
the falsiness test on `video.duration`). -/
def windowSpan (d : ℚ) (lvl : ZoomLevel) : ℚ :=
  if d = 0 then 0 else d / lvl.toQ

/-- `getZoomWindowDuration()` on a state: the span at the state's level. -/
def getZoomWindowDuration (d : ℚ) (s : ZoomState) : ℚ :=
  windowSpan d s.level

/-- `getMaxZoomWindowStart`, lines 360-363:
`Math.max(0, video.duration - getZoomWindowDuration())`. -/
def getMaxZoomWindowStart (d : ℚ) (s : ZoomState) : ℚ :=
  jsMax 0 (d - getZoomWindowDuration d s)

/-- `setZoomWindowStart`, lines 365-368:
`zoomWindowStart = Math.max(0, Math.min(getMaxZoomWindowStart(), nextStart))`. -/
def setZoomWindowStart (d : ℚ) (nextStart : ℚ) (s : ZoomState) : ZoomState :=
  { s with zoomWindowStart := jsMax 0 (jsMin (getMaxZoomWindowStart d s) nextStart) }

/-- `panZoomWindow`, lines 370-374: step `0.08 × span` in the direction
of the wheel delta, routed through `setZoomWindowStart`. -/
def panZoomWindow (d : ℚ) (delta : ℚ) (s : ZoomState) : ZoomState :=
  let direction : ℚ := if 0 < delta then 1 else -1
  let panAmount := getZoomWindowDuration d s * (8 / 100) * direction
  setZoomWindowStart d (s.zoomWindowStart + panAmount) s

/-- `setZoomLevel`, lines 329-337: remember the old centre
(`zoomWindowStart + oldWindowDuration / 2`), switch the level, and move
the start so the new window has the same centre, clamped through
`setZoomWindowStart`. -/
def setZoomLevel (d : ℚ) (lvl : ZoomLevel) (s : ZoomState) : ZoomState :=
  let oldWindowDuration := getZoomWindowDuration d s
  let centerTime := s.zoomWindowStart + oldWindowDuration / 2
  let s' : ZoomState := { s with level := lvl }
  let newWindowDuration := getZoomWindowDuration d s'
  setZoomWindowStart d (centerTime - newWindowDuration / 2) s'

/-- `keepZoomWindowVisible`, lines 376-388: if the playback time `t`
left the window, move the start so `t` sits at the nearer edge, then
clamp to `[0, getMaxZoomWindowStart()]`. -/
def keepZoomWindowVisible (d : ℚ) (t : ℚ) (s : ZoomState) : ZoomState :=
  let windowDuration := getZoomWindowDuration d s
  let windowEnd := s.zoomWindowStart + windowDuration
  let start1 : ℚ :=
    if t < s.zoomWindowStart then t
    else if windowEnd < t then t - windowDuration
    else s.zoomWindowStart
  let s' : ZoomState := { s with zoomWindowStart := start1 }
  { s' with zoomWindowStart := jsMax 0 (jsMin (getMaxZoomWindowStart d s') start1) }

/-- The magnifier-toggle click handler, lines 198-207: flip
`zoomEnabled`; when re-enabling, recentre on the current playback time
`t` through `setZoomWindowStart`. -/
def toggleMagnifier (d : ℚ) (t : ℚ) (s : ZoomState) : ZoomState :=
  let s' : ZoomState := { s with zoomEnabled := !s.zoomEnabled }
  if s'.zoomEnabled then
    let windowDuration := getZoomWindowDuration d s'
    setZoomWindowStart d (t - windowDuration / 2) s'
  else s'

/-- One user-triggered window operation; `follow` and `toggleEnabled`
carry the playback time they read from the video. -/
inductive ZoomOp where
  | setStart (nextStart : ℚ)
  | pan (delta : ℚ)
  | setLevel (lvl : ZoomLevel)
  | follow (t : ℚ)
  | toggleEnabled (t : ℚ)
deriving DecidableEq, Repr

/-- Dispatch a window operation on the state. -/
def applyZoomOp (d : ℚ) (op : ZoomOp) (s : ZoomState) : ZoomState :=
  match op with
  | .setStart nextStart => setZoomWindowStart d nextStart s
  | .pan delta => panZoomWindow d delta s
  | .setLevel lvl => setZoomLevel d lvl s
  | .follow t => keepZoomWindowVisible d t s
  | .toggleEnabled t => toggleMagnifier d t s

/-- The zoom state installed by `setupVideoControls`, lines 137-139:
`zoomEnabled = true; zoomLevel = 2; zoomWindowStart = 0`. -/
def initZoomState : ZoomState :=
  { level := .l2, zoomWindowStart := 0, zoomEnabled := true }

/-- The zoom state after a sequence of window operations from the
initial state. -/
def runZoomOps (d : ℚ) (ops : List ZoomOp) : ZoomState :=
  ops.foldl (fun s op => applyZoomOp d op s) initZoomState

/-- The spec's window invariant:
`0 ≤ start ≤ max(0, duration − duration/level)`. -/
abbrev zoomWindowInvariant (d : ℚ) (s : ZoomState) : Prop :=
  0 ≤ s.zoomWindowStart ∧ s.zoomWindowStart ≤ jsMax 0 (d - d / s.level.toQ)

/-- The window centre: `zoomWindowStart` plus half the span. -/
def zoomCenter (d : ℚ) (s : ZoomState) : ℚ :=
  s.zoomWindowStart + getZoomWindowDuration d s / 2

/-- One element of the `frames` array built by `exportFrames`
(line 446: `{ blob: Blob; time: number }`); the captured raster is
abstracted to a numeric code. -/
structure ExportResult where
  imageData : ℕ
  sourceTime : ℚ
deriving DecidableEq, Repr

/-- Terminal failures of the export pipeline: the empty-marker fast
fail of lines 419-422, or a seek/capture failure at a marker's time
(an `onseeked` that never fires stalls the loop, and an exception in
`drawImage`/`toBlob` aborts the async function; either way the local
`frames` array is discarded and nothing is delivered). -/
inductive ExportFailure where
  | noMarkers
  | frameFailure (time : ℚ)
deriving DecidableEq, Repr

/-- The seek-then-capture interaction with the playback surface for one
marker (lines 450-460): seek to the time, await `onseeked`, draw and
encode the frame.  `none` models the failing cases (seek never
completes, or capture throws): the export delivers nothing. -/
abbrev Surface := ℚ → Option ℕ

/-- The snapshot reference semantics of the capture loop of
`exportFrames` (lines 448-464): the loop body run over a marker list
fixed at export start, as the spec's "snapshotted at start" process
prescribes.  Each marker is sought and captured in order and appended
to the accumulator; a failure aborts the whole run, discarding the
accumulator.  The program itself re-reads the live array each
iteration — that is `liveExportLoop` below, which this definition is
the reference for. -/
def exportFramesLoop (surface : Surface) : List Marker → List ExportResult → Except ExportFailure (List ExportResult)
  | [], acc => .ok acc
  | m :: ms, acc =>
    match surface m.time with
    | none => .error (.frameFailure m.time)
    | some img => exportFramesLoop surface ms (acc ++ [{ imageData := img, sourceTime := m.time }])

/-- The snapshot reference semantics of `exportFrames`: the guard of
lines 419-422 (`markers.length === 0` alerts and returns with no
results), then the capture loop over the start-time marker list. -/
def exportFramesRun (surface : Surface) (markers : List Marker) : Except ExportFailure (List ExportResult) :=
  if markers = [] then .error .noMarkers
  else exportFramesLoop surface markers []

/-- The capture loop of `exportFrames` against the LIVE marker array:
the loop header `i < markers.length` and the read `markers[i]` consult
the current array on every iteration, and `edits i` is whatever marker
additions/removals the user performs at the suspension points of
iteration `i` (the `await`s at lines 452-460).  `fuel` bounds the
number of iterations so the recursion is structural; with
`fuel ≥` the number of loop iterations it never runs out. -/
def liveExportLoop (surface : Surface) (edits : ℕ → List Marker → List Marker) :
    ℕ → ℕ → List Marker → List ExportResult → Option (List ExportResult)
  | 0, i, l, acc => if i < l.length then none else some acc
  | fuel + 1, i, l, acc =>
    if h : i < l.length then
      match surface l[i].time with
      | none => none
      | some img =>
        liveExportLoop surface edits fuel (i + 1) (edits i l)
          (acc ++ [{ imageData := img, sourceTime := l[i].time }])
    else some acc

/-- `exportFrames` with the marker store live during the run: the
initial guard, then the live loop from `i = 0`. -/
def liveExportRun (surface : Surface) (edits : ℕ → List Marker → List Marker)
    (fuel : ℕ) (markers : List Marker) : Option (List ExportResult) :=
  if markers = [] then none
  else liveExportLoop surface edits fuel 0 markers []

/-- The state consulted by the export-start guard, plus the number of
`exportFrames` invocations currently in flight (each click on the
export button spawns one async run; the source keeps no such counter,
which is the point at issue). -/
structure AppState where
  videoLoaded : Bool
  markers : List Marker
  activeExports : ℕ
deriving DecidableEq, Repr

/-- A click on the export button (line 235 wires it to `exportFrames`):
the only guard is lines 419-422, `if (!video || markers.length === 0)`;
when it passes, another async export run starts. -/
def startExport (st : AppState) : AppState :=
  if st.videoLoaded = false ∨ st.markers.length = 0 then st
  else { st with activeExports := st.activeExports + 1 }

/-- `Math.round` of ECMA-262: round half toward positive infinity,
i.e. the floor of `x + 1/2`. -/
def jsRound (x : ℚ) : ℤ := (x + 1 / 2).floor

/-- The output raster size computed once per export, lines 431-444:
natural dimensions, scaled down by `min(1080/w, 1920/h)` (and rounded)
only when either dimension exceeds the 1080×1920 ceiling. -/
def computeExportSize (w h : ℕ) : ℤ × ℤ :=
  let maxWidth : ℕ := 1080
  let maxHeight : ℕ := 1920
  if maxWidth < w ∨ maxHeight < h then
    let scale : ℚ := jsMin ((maxWidth : ℚ) / w) ((maxHeight : ℚ) / h)
    (jsRound (w * scale), jsRound (h * scale))
  else ((w : ℤ), (h : ℤ))

/-! Helper lemmas shared by the claim theorems. -/

/-- `jsMin` agrees with the lattice `min` on `ℚ`. -/
theorem jsMin_eq (a b : ℚ) : jsMin a b = min a b := (min_def a b).symm

/-- `jsMax` agrees with the lattice `max` on `ℚ`. -/
theorem jsMax_eq (a b : ℚ) : jsMax a b = max a b := (max_def a b).symm

/-- `Rat.floor` is the `Int.floor` of the rational. -/
theorem ratFloor_eq (q : ℚ) : q.floor = ⌊q⌋ := rfl

/-- Every zoom level has a positive numeric value. -/
theorem ZoomLevel.toQ_pos (lvl : ZoomLevel) : 0 < lvl.toQ := by
  cases lvl <;> norm_num [ZoomLevel.toQ]

/-- The duration-zero branch of `getZoomWindowDuration` is redundant
over `ℚ`: the span is always `d / level`. -/
theorem windowSpan_eq (d : ℚ) (lvl : ZoomLevel) : windowSpan d lvl = d / lvl.toQ := by
  unfold windowSpan
  split
  · rename_i h
    rw [h, zero_div]
  · rfl

/-- Clamping through `setZoomWindowStart` always lands inside the
window invariant's bounds, whatever the requested start. -/
theorem setZoomWindowStart_invariant (d x : ℚ) (s : ZoomState) :
    zoomWindowInvariant d (setZoomWindowStart d x s) := by
  unfold setZoomWindowStart getMaxZoomWindowStart getZoomWindowDuration
  simp only [windowSpan_eq]
  constructor
  · simp only [jsMax_eq]
    exact le_max_left 0 _
  · simp only [jsMax_eq, jsMin_eq]
    exact max_le (le_max_left 0 _) (min_le_left _ _)

/-- The trailing clamp of `keepZoomWindowVisible` restores the window
invariant, whatever intermediate start was chosen. -/
theorem keepZoomWindowVisible_invariant (d t : ℚ) (s : ZoomState) :
    zoomWindowInvariant d (keepZoomWindowVisible d t s) := by
  unfold keepZoomWindowVisible getMaxZoomWindowStart getZoomWindowDuration
  simp only [windowSpan_eq]
  constructor
  · simp only [jsMax_eq]
    exact le_max_left 0 _
  · simp only [jsMax_eq, jsMin_eq]
    exact max_le (le_max_left 0 _) (min_le_left _ _)

/-- Every single window operation preserves the window invariant. -/
theorem applyZoomOp_invariant (d : ℚ) (op : ZoomOp) (s : ZoomState)
    (h : zoomWindowInvariant d s) : zoomWindowInvariant d (applyZoomOp d op s) := by
  cases op with
  | setStart nextStart => exact setZoomWindowStart_invariant d nextStart s
  | pan delta => exact setZoomWindowStart_invariant d _ s
  | setLevel lvl => exact setZoomWindowStart_invariant d _ _
  | follow t => exact keepZoomWindowVisible_invariant d t s
  | toggleEnabled t =>
    unfold applyZoomOp toggleMagnifier
    by_cases he : s.zoomEnabled
    · simp only [he, Bool.not_true, if_neg]
      simpa using h
    · simp only [Bool.not_eq_true] at he
      simp only [he, Bool.not_false, if_pos]
      exact setZoomWindowStart_invariant d _ _

/-- A fold of window operations preserves the window invariant. -/
theorem foldl_applyZoomOp_invariant (d : ℚ) (ops : List ZoomOp) :
    ∀ s : ZoomState, zoomWindowInvariant d s →
      zoomWindowInvariant d (ops.foldl (fun s op => applyZoomOp d op s) s) := by
  induction ops with
  | nil => exact fun s h => h
  | cons op ops ih =>
    intro s h
    exact ih (applyZoomOp d op s) (applyZoomOp_invariant d op s h)

/-- The initial zoom state satisfies the window invariant. -/
theorem initZoomState_invariant (d : ℚ) : zoomWindowInvariant d initZoomState := by
  constructor
  · exact le_refl 0
  · rw [jsMax_eq]
    exact le_max_left 0 _

/-- The result of any insert-sort step is sorted ascending by time. -/
theorem addMarkerRaw_pairwise (m : Marker) (l : List Marker) :
    (addMarkerRaw m l).Pairwise markerLe :=
  List.sorted_insertionSort markerLe (l ++ [m])

/-! Claim theorems. -/

/-- C2: for every duration and every sequence of window operations
(`setStart`, `pan`, `setLevel` over levels `{2,4,8}`, `follow`,
`toggleEnabled`), the window-start invariant
`0 ≤ zoomWindowStart ≤ max(0, duration − duration/level)` holds after
every call. -/
theorem zoom_ops_window_invariant (d : ℚ) (ops : List ZoomOp) :
    zoomWindowInvariant d (runZoomOps d ops) :=
  foldl_applyZoomOp_invariant d ops initZoomState (initZoomState_invariant d)

/-- C5: after every sequence of `addMarker` calls the collection is
sorted ascending by time, and markers with equal times keep insertion
order: adding times `[5, 2, 5]` yields stored order
`[2, 5 (first), 5 (second)]`. -/
theorem addMarker_sorted_and_stable :
    (∀ adds : List (ℕ × ℚ), (runAdds adds).Pairwise markerLe) ∧
    runAdds [(100, 5), (200, 2), (300, 5)] =
      [⟨2, markerId 200⟩, ⟨5, markerId 100⟩, ⟨5, markerId 300⟩] := by
  constructor
  · have key : ∀ (adds : List (ℕ × ℚ)) (l : List Marker), l.Pairwise markerLe →
        (adds.foldl (fun l p => addMarker p.1 p.2 l) l).Pairwise markerLe := by
      intro adds
      induction adds with
      | nil => exact fun l h => h
      | cons p ps ih =>
        intro l h
        exact ih (addMarker p.1 p.2 l) (addMarkerRaw_pairwise _ l)
    exact fun adds => key adds [] List.Pairwise.nil
  · decide

/-- C10: the claim that stored markers always have pairwise-distinct id
tokens fails on the code: the id is `` `marker-${Date.now()}` `` with
millisecond resolution, so two `addMarker` calls inside the same
millisecond (clock value 1000 here) store two markers with the same id. -/
theorem addMarker_same_millisecond_id_collision :
    ((addMarker 1000 2 (addMarker 1000 1 [])).map Marker.id = [markerId 1000, markerId 1000]) ∧
    ¬ (addMarker 1000 2 (addMarker 1000 1 [])).Pairwise (fun a b => a.id ≠ b.id) := by
  constructor
  · decide
  · decide

/-- C6: with a known duration, `setZoomLevel` recomputes the span and
recentres the window on its previous centre `start + oldSpan/2`, then
clamps: the centre read immediately after the call equals the pre-call
centre whenever the unclamped centre respects the window bounds. -/
theorem setZoomLevel_preserves_center (d : ℚ) (lvl : ZoomLevel) (s : ZoomState) (hd : 0 < d)
    (h0 : 0 ≤ zoomCenter d s - windowSpan d lvl / 2)
    (h1 : zoomCenter d s - windowSpan d lvl / 2 ≤ jsMax 0 (d - windowSpan d lvl)) :
    zoomCenter d (setZoomLevel d lvl s) = zoomCenter d s := by
  have hd' : d ≠ 0 := ne_of_gt hd
  clear hd'
  simp only [zoomCenter, getZoomWindowDuration] at h0 h1 ⊢
  simp only [setZoomLevel, setZoomWindowStart, getMaxZoomWindowStart, getZoomWindowDuration,
    jsMax_eq, jsMin_eq] at h1 ⊢
  rw [min_eq_right h1, max_eq_right h0]
  ring

/-- Witness for C6: duration 100, window start 10 at level 2 (span 50,
centre 35); switching to level 4 (span 25) keeps the centre at 35. -/
theorem setZoomLevel_preserves_center_witness :
    zoomCenter 100 (setZoomLevel 100 .l4 ⟨.l2, 10, true⟩) = zoomCenter 100 ⟨.l2, 10, true⟩ :=
  setZoomLevel_preserves_center 100 .l4 ⟨.l2, 10, true⟩ (by norm_num)
    (by norm_num [zoomCenter, getZoomWindowDuration, windowSpan, ZoomLevel.toQ])
    (by norm_num [zoomCenter, getZoomWindowDuration, windowSpan, jsMax, ZoomLevel.toQ])

/-- C7: `keepZoomWindowVisible` moves the window minimally and never
touches level or enabled state: a play-head left of the window puts the
start at `t` (leading edge), one past the trailing edge puts the end at
`t` (start `t − span`), and a play-head inside the window leaves the
state untouched. -/
theorem keepZoomWindowVisible_minimal (d t : ℚ) (s : ZoomState)
    (hinv : zoomWindowInvariant d s) (ht0 : 0 ≤ t) (htd : t ≤ d) :
    ((keepZoomWindowVisible d t s).level = s.level ∧
     (keepZoomWindowVisible d t s).zoomEnabled = s.zoomEnabled) ∧
    (t < s.zoomWindowStart → (keepZoomWindowVisible d t s).zoomWindowStart = t) ∧
    (s.zoomWindowStart + getZoomWindowDuration d s < t →
      (keepZoomWindowVisible d t s).zoomWindowStart = t - getZoomWindowDuration d s) ∧
    (s.zoomWindowStart ≤ t → t ≤ s.zoomWindowStart + getZoomWindowDuration d s →
      keepZoomWindowVisible d t s = s) := by
  obtain ⟨hinv0, hinv1⟩ := hinv
  simp only [jsMax_eq] at hinv1
  have hd0 : 0 ≤ d := le_trans ht0 htd
  have hspan : 0 ≤ windowSpan d s.level := by
    rw [windowSpan_eq]
    exact div_nonneg hd0 (ZoomLevel.toQ_pos s.level).le
  have hbound : s.zoomWindowStart ≤ max 0 (d - windowSpan d s.level) := by
    rw [windowSpan_eq]
    exact hinv1
  refine ⟨⟨?_, ?_⟩, ?_, ?_, ?_⟩
  · simp [keepZoomWindowVisible]
  · simp [keepZoomWindowVisible]
  · intro hlt
    simp only [keepZoomWindowVisible, getMaxZoomWindowStart, getZoomWindowDuration,
      jsMax_eq, jsMin_eq]
    rw [if_pos hlt]
    rw [min_eq_right (le_trans hlt.le hbound), max_eq_right ht0]
  · intro hgt
    simp only [getZoomWindowDuration] at hgt
    have hnlt : ¬ t < s.zoomWindowStart :=
      not_lt.mpr (le_trans (le_add_of_nonneg_right hspan) hgt.le)
    have hub : t - windowSpan d s.level ≤ max 0 (d - windowSpan d s.level) :=
      le_trans (sub_le_sub_right htd _) (le_max_right 0 _)
    have hlb : 0 ≤ t - windowSpan d s.level :=
      sub_nonneg.mpr (le_trans (le_add_of_nonneg_left hinv0) hgt.le)
    simp only [keepZoomWindowVisible, getMaxZoomWindowStart, getZoomWindowDuration,
      jsMax_eq, jsMin_eq]
    rw [if_neg hnlt, if_pos hgt]
    rw [min_eq_right hub, max_eq_right hlb]
  · intro hge hle
    simp only [getZoomWindowDuration] at hle
    have hnlt : ¬ t < s.zoomWindowStart := not_lt.mpr hge
    have hnlt2 : ¬ s.zoomWindowStart + windowSpan d s.level < t := not_lt.mpr hle
    simp only [keepZoomWindowVisible, getMaxZoomWindowStart, getZoomWindowDuration,
      jsMax_eq, jsMin_eq]
    rw [if_neg hnlt, if_neg hnlt2]
    rw [min_eq_right hbound, max_eq_right hinv0]

/-- Witness for C7 at the spec scenario: duration 100, level 4
(span 25), `setStart(10)` gives window `[10, 35]`, and `follow(40)`
snaps the start to 15, i.e. window `[15, 40]`. -/
theorem keepZoomWindowVisible_minimal_witness :
    setZoomWindowStart 100 10 ⟨.l4, 0, true⟩ = ⟨.l4, 10, true⟩ ∧
    (keepZoomWindowVisible 100 40 ⟨.l4, 10, true⟩).zoomWindowStart = 15 := by
  constructor
  · norm_num [setZoomWindowStart, getMaxZoomWindowStart, getZoomWindowDuration, windowSpan,
      jsMax, jsMin, ZoomLevel.toQ]
  · have h := (keepZoomWindowVisible_minimal 100 40 ⟨.l4, 10, true⟩
      (by constructor <;> norm_num [jsMax, ZoomLevel.toQ])
      (by norm_num) (by norm_num)).2.2.1
      (by norm_num [getZoomWindowDuration, windowSpan, ZoomLevel.toQ])
    rw [h]
    norm_num [getZoomWindowDuration, windowSpan, ZoomLevel.toQ]

/-- The capture loop either completes with the accumulated results
followed by one result per remaining marker (times in marker order), or
aborts with the failing marker's time. -/
theorem exportFramesLoop_spec (surface : Surface) :
    ∀ (ms : List Marker) (acc : List ExportResult),
      (∃ rs, exportFramesLoop surface ms acc = .ok rs ∧
        rs.map ExportResult.sourceTime =
          acc.map ExportResult.sourceTime ++ ms.map Marker.time) ∨
      (∃ t, exportFramesLoop surface ms acc = .error (.frameFailure t) ∧
        t ∈ ms.map Marker.time) := by
  intro ms
  induction ms with
  | nil =>
    intro acc
    left
    exact ⟨acc, rfl, by simp⟩
  | cons m ms ih =>
    intro acc
    cases hs : surface m.time with
    | none =>
      right
      refine ⟨m.time, ?_, by simp⟩
      simp [exportFramesLoop, hs]
    | some img =>
      rcases ih (acc ++ [{ imageData := img, sourceTime := m.time }]) with
        ⟨rs, h1, h2⟩ | ⟨t, h1, h2⟩
      · left
        refine ⟨rs, ?_, ?_⟩
        · simp [exportFramesLoop, hs, h1]
        · simpa using h2
      · right
        refine ⟨t, ?_, ?_⟩
        · simp [exportFramesLoop, hs, h1]
        · simp [h2]

/-- C4 counterexample: the claim that marker edits made after export
start cannot change the export's results fails on the code.  The loop
reads the live array: starting the export on a single marker at time 1
and adding a marker at time 2 during the first iteration's suspension
points yields two results instead of one. -/
theorem liveExport_concurrent_add_changes_results :
    liveExportRun (fun _ => some 0)
        (fun i l => if i = 0 then addMarkerRaw ⟨2, markerId 2⟩ l else l) 5 [⟨1, markerId 1⟩] ≠
      liveExportRun (fun _ => some 0) (fun _ l => l) 5 [⟨1, markerId 1⟩] := by
  decide

/-- With no concurrent edits, the live loop agrees with the pure
capture loop on the suffix of markers not yet processed. -/
theorem liveExportLoop_noEdits (surface : Surface) :
    ∀ (fuel i : ℕ) (l : List Marker) (acc : List ExportResult), l.length - i ≤ fuel →
      liveExportLoop surface (fun _ l => l) fuel i l acc =
        (exportFramesLoop surface (l.drop i) acc).toOption := by
  intro fuel
  induction fuel with
  | zero =>
    intro i l acc h
    have hle : l.length ≤ i := by omega
    rw [List.drop_eq_nil_of_le hle]
    simp [liveExportLoop, exportFramesLoop, Nat.not_lt.mpr hle, Except.toOption]
  | succ fuel ih =>
    intro i l acc h
    by_cases hi : i < l.length
    · rw [List.drop_eq_getElem_cons hi]
      simp only [liveExportLoop, dif_pos hi]
      cases hs : surface l[i].time with
      | none => simp [exportFramesLoop, hs, Except.toOption]
      | some img =>
        dsimp only
        have h2 := ih (i + 1) l (acc ++ [{ imageData := img, sourceTime := l[i].time }])
          (by omega)
        simp only [exportFramesLoop, hs]
        exact h2
    · rw [List.drop_eq_nil_of_le (Nat.not_lt.mp hi)]
      simp [liveExportLoop, exportFramesLoop, hi, Except.toOption]

/-- C4 amended: the export iterates the live marker array, not a
snapshot; only in the absence of concurrent marker edits does the run
coincide with the snapshot export taken at start (concurrent edits can
change the result set, see the counterexample). -/
theorem liveExport_noEdits_eq_snapshot (surface : Surface) (markers : List Marker) (fuel : ℕ)
    (h : markers.length ≤ fuel) :
    liveExportRun surface (fun _ l => l) fuel markers =
      (exportFramesRun surface markers).toOption := by
  unfold liveExportRun exportFramesRun
  by_cases hm : markers = []
  · simp [hm, Except.toOption]
  · rw [if_neg hm, if_neg hm]
    have := liveExportLoop_noEdits surface fuel 0 markers [] (by omega)
    simpa using this

/-- Witness for the amended C4 on one marker with ample fuel. -/
theorem liveExport_noEdits_eq_snapshot_witness :
    liveExportRun (fun _ => some 0) (fun _ l => l) 1 [⟨1, markerId 1⟩] =
      (exportFramesRun (fun _ => some 0) [⟨1, markerId 1⟩]).toOption :=
  liveExport_noEdits_eq_snapshot (fun _ => some 0) [⟨1, markerId 1⟩] 1 (by decide)

/-- C1 counterexample: the claim that an export on a start set of size
N either delivers exactly N results or zero results plus a failure
fails on the code.  The loop reads the live array while the remove
buttons stay wired: on a start set of two markers, removing the second
one during the first iteration's suspension points ends the loop after
one capture, delivering exactly 1 of 2 results with no failure. -/
theorem exportFrames_concurrent_remove_partial_results :
    ([⟨1, markerId 1⟩, ⟨2, markerId 2⟩] : List Marker).length = 2 ∧
    liveExportRun (fun _ => some 0)
        (fun i l => if i = 0 then removeMarker (markerId 2) l else l) 5
        [⟨1, markerId 1⟩, ⟨2, markerId 2⟩] =
      some [{ imageData := 0, sourceTime := 1 }] ∧
    ([{ imageData := 0, sourceTime := 1 }] : List ExportResult).length = 1 := by
  refine ⟨rfl, ?_, rfl⟩
  decide

/-- C1 amended: over the live-array loop, PROVIDED no marker edits
occur during the run, an export on a nonempty time-sorted start set
either delivers exactly one result per marker, source times equal to
the marker times in ascending order, or delivers nothing while the
reference run reports a failure carrying the time of some marker;
concurrent edits void this (see the counterexample). -/
theorem exportFrames_noEdits_all_or_nothing (surface : Surface) (markers : List Marker)
    (fuel : ℕ) (hfuel : markers.length ≤ fuel) (hne : markers ≠ [])
    (hsorted : markers.Pairwise markerLe) :
    (∃ rs, liveExportRun surface (fun _ l => l) fuel markers = some rs ∧
      exportFramesRun surface markers = .ok rs ∧
      rs.length = markers.length ∧
      rs.map ExportResult.sourceTime = markers.map Marker.time ∧
      (rs.map ExportResult.sourceTime).Pairwise (· ≤ ·)) ∨
    (∃ t, liveExportRun surface (fun _ l => l) fuel markers = none ∧
      exportFramesRun surface markers = .error (.frameFailure t) ∧
      t ∈ markers.map Marker.time) := by
  have hlive : liveExportRun surface (fun _ l => l) fuel markers =
      (exportFramesRun surface markers).toOption := by
    unfold liveExportRun exportFramesRun
    rw [if_neg hne, if_neg hne]
    have := liveExportLoop_noEdits surface fuel 0 markers [] (by omega)
    simpa using this
  rcases exportFramesLoop_spec surface markers [] with ⟨rs, h1, h2⟩ | ⟨t, h1, h2⟩
  · left
    simp only [List.map_nil, List.nil_append] at h2
    have hrun : exportFramesRun surface markers = .ok rs := by
      unfold exportFramesRun
      rw [if_neg hne]
      exact h1
    refine ⟨rs, ?_, hrun, ?_, h2, ?_⟩
    · rw [hlive, hrun]
      rfl
    · have := congrArg List.length h2
      simpa using this
    · rw [h2]
      exact List.Pairwise.map Marker.time (fun a b hab => hab) hsorted
  · right
    have hrun : exportFramesRun surface markers = .error (.frameFailure t) := by
      unfold exportFramesRun
      rw [if_neg hne]
      exact h1
    refine ⟨t, ?_, hrun, h2⟩
    rw [hlive, hrun]
    rfl

/-- Witness for the amended C1 on two markers, edit-free run, with an
always-succeeding surface. -/
theorem exportFrames_noEdits_all_or_nothing_witness :
    (∃ rs, liveExportRun (fun _ => some 0) (fun _ l => l) 2
        [⟨1, markerId 1⟩, ⟨2, markerId 2⟩] = some rs ∧
      exportFramesRun (fun _ => some 0) [⟨1, markerId 1⟩, ⟨2, markerId 2⟩] = .ok rs ∧
      rs.length = ([⟨1, markerId 1⟩, ⟨2, markerId 2⟩] : List Marker).length ∧
      rs.map ExportResult.sourceTime =
        ([⟨1, markerId 1⟩, ⟨2, markerId 2⟩] : List Marker).map Marker.time ∧
      (rs.map ExportResult.sourceTime).Pairwise (· ≤ ·)) ∨
    (∃ t, liveExportRun (fun _ => some 0) (fun _ l => l) 2
        [⟨1, markerId 1⟩, ⟨2, markerId 2⟩] = none ∧
      exportFramesRun (fun _ => some 0) [⟨1, markerId 1⟩, ⟨2, markerId 2⟩] =
        .error (.frameFailure t) ∧
      t ∈ ([⟨1, markerId 1⟩, ⟨2, markerId 2⟩] : List Marker).map Marker.time) :=
  exportFrames_noEdits_all_or_nothing (fun _ => some 0) [⟨1, markerId 1⟩, ⟨2, markerId 2⟩] 2
    (by decide) (by decide) (by decide)

/-- C3 counterexample: the claim that a second export start request is
rejected while one is in flight fails on the code.  With a video
loaded, one marker, and one export already active, the start guard
(which checks only the video and the marker count) passes and a second
export becomes active. -/
theorem startExport_second_start_not_rejected :
    1 ≤ (AppState.mk true [⟨1, markerId 1⟩] 1).activeExports ∧
    startExport (AppState.mk true [⟨1, markerId 1⟩] 1) ≠ AppState.mk true [⟨1, markerId 1⟩] 1 ∧
    (startExport (AppState.mk true [⟨1, markerId 1⟩] 1)).activeExports = 2 := by
  refine ⟨le_refl 1, ?_, ?_⟩ <;> decide

/-- C3 amended: the only start guard is "video loaded and markers
nonempty"; whenever it passes another export starts (the active count
grows by one, regardless of exports already in flight), and a start is
rejected exactly by that guard. -/
theorem startExport_guard_spec (st : AppState) :
    (st.videoLoaded = true → st.markers ≠ [] →
      (startExport st).activeExports = st.activeExports + 1) ∧
    (st.videoLoaded = false ∨ st.markers = [] → startExport st = st) := by
  constructor
  · intro hv hm
    unfold startExport
    rw [if_neg]
    rintro (h | h)
    · rw [hv] at h
      exact absurd h (by simp)
    · exact hm (List.length_eq_zero.mp h)
  · intro hcase
    unfold startExport
    rw [if_pos]
    rcases hcase with h | h
    · exact Or.inl h
    · exact Or.inr (by simp [h])

/-- Witness for the amended C3: a second start with one export already
active brings the active count to two. -/
theorem startExport_guard_spec_witness :
    (startExport (AppState.mk true [⟨1, markerId 1⟩] 1)).activeExports = 1 + 1 :=
  (startExport_guard_spec (AppState.mk true [⟨1, markerId 1⟩] 1)).1 rfl (by decide)

/-- C8 counterexample: the claim that with duration zero every window
operation leaves the window state unchanged fails on the code:
`setZoomLevel` still records the new level (the initial state holds
level 2; after `setLevel 8` with duration 0 the state differs). -/
theorem zero_duration_setLevel_changes_state :
    getZoomWindowDuration 0 initZoomState = 0 ∧
    applyZoomOp 0 (.setLevel .l8) initZoomState ≠ initZoomState := by
  constructor
  · simp [getZoomWindowDuration, windowSpan]
  · decide

/-- C8 amended: with duration zero the span is 0 and every window
operation leaves the window START unchanged (pinned at its clamped
value 0) and raises no error, though `setLevel` still updates the level
and `toggleEnabled` still flips the flag. -/
theorem zero_duration_ops_fix_start (op : ZoomOp) (s : ZoomState) (h : s.zoomWindowStart = 0) :
    getZoomWindowDuration 0 s = 0 ∧ (applyZoomOp 0 op s).zoomWindowStart = 0 := by
  have hspan : ∀ lvl, windowSpan (0 : ℚ) lvl = 0 := fun lvl => by simp [windowSpan]
  have hclamp : ∀ x : ℚ, max (0 : ℚ) (min 0 x) = 0 := fun x => max_eq_left (min_le_left 0 x)
  constructor
  · simp [getZoomWindowDuration, hspan]
  · cases op with
    | setStart nextStart =>
      simp [applyZoomOp, setZoomWindowStart, getMaxZoomWindowStart, getZoomWindowDuration,
        hspan, jsMax_eq, jsMin_eq, hclamp]
    | pan delta =>
      simp [applyZoomOp, panZoomWindow, setZoomWindowStart, getMaxZoomWindowStart,
        getZoomWindowDuration, hspan, jsMax_eq, jsMin_eq, hclamp]
    | setLevel lvl =>
      simp [applyZoomOp, setZoomLevel, setZoomWindowStart, getMaxZoomWindowStart,
        getZoomWindowDuration, hspan, jsMax_eq, jsMin_eq, hclamp]
    | follow t =>
      simp [applyZoomOp, keepZoomWindowVisible, getMaxZoomWindowStart,
        getZoomWindowDuration, hspan, jsMax_eq, jsMin_eq, hclamp]
    | toggleEnabled t =>
      by_cases he : s.zoomEnabled
      · simp [applyZoomOp, toggleMagnifier, he, h]
      · simp only [Bool.not_eq_true] at he
        simp [applyZoomOp, toggleMagnifier, he, setZoomWindowStart, getMaxZoomWindowStart,
          getZoomWindowDuration, hspan, jsMax_eq, jsMin_eq, hclamp]

/-- Witness for the amended C8: `setStart 5` with duration zero keeps
the start at 0. -/
theorem zero_duration_ops_fix_start_witness :
    getZoomWindowDuration 0 initZoomState = 0 ∧
    (applyZoomOp 0 (.setStart 5) initZoomState).zoomWindowStart = 0 :=
  zero_duration_ops_fix_start (.setStart 5) initZoomState rfl

/-- C9: the export's output raster size keeps natural dimensions that
fit the 1080×1920 ceiling, scales both dimensions by the same ratio
`min(1080/w, 1920/h)` (rounded) when either exceeds it, and in
particular maps a 4000×3000 source to 1080×810. -/
theorem computeExportSize_spec :
    (∀ w h : ℕ, w ≤ 1080 → h ≤ 1920 → computeExportSize w h = ((w : ℤ), (h : ℤ))) ∧
    (∀ w h : ℕ, 1080 < w ∨ 1920 < h →
      computeExportSize w h =
        (jsRound (w * jsMin (1080 / (w : ℚ)) (1920 / (h : ℚ))),
         jsRound (h * jsMin (1080 / (w : ℚ)) (1920 / (h : ℚ))))) ∧
    computeExportSize 4000 3000 = (1080, 810) := by
  refine ⟨?_, ?_, ?_⟩
  · intro w h hw hh
    simp only [computeExportSize]
    rw [if_neg]
    rintro (hc | hc)
    · exact absurd hw (not_le.mpr hc)
    · exact absurd hh (not_le.mpr hc)
  · intro w h hcond
    simp only [computeExportSize]
    rw [if_pos hcond]
    norm_num
  · norm_num [computeExportSize, jsMin, jsRound, ratFloor_eq]

/-- Witness for C9: 800×600 is kept unchanged, and 4000×3000 is scaled
by the common ratio. -/
theorem computeExportSize_spec_witness :
    computeExportSize 800 600 = ((800 : ℤ), (600 : ℤ)) ∧
    computeExportSize 4000 3000 =
      (jsRound ((4000 : ℕ) * jsMin (1080 / ((4000 : ℕ) : ℚ)) (1920 / ((3000 : ℕ) : ℚ))),
       jsRound ((3000 : ℕ) * jsMin (1080 / ((4000 : ℕ) : ℚ)) (1920 / ((3000 : ℕ) : ℚ)))) :=
  ⟨computeExportSize_spec.1 800 600 (by norm_num) (by norm_num),
   computeExportSize_spec.2.1 4000 3000 (by norm_num)⟩

end FramesExtractor
